import Mathlib

/-!
Verification of `disparrange.py`, a display-setup tool that maps a named
profile of output specifications to a single invocation of the external
`xrandr` utility.

The Python source is shallowly embedded below:
* `OutputDevice`, `OutputSpec` mirror the probe records and the JSON
  profile entries;
* `splitlines`, `pySplit`, `pySplitChar`, `pyStartswith` model the Python
  string primitives used by the source (`str.splitlines`, `str.split()`,
  `str.split('x')`, `str.startswith`);
* `get_available_displays` embeds the xrandr-output parser (its `stdout`
  argument stands for the captured output of the `xrandr` query);
* `set_display_setup` / `list_display_setups` embed the two entry points;
  printing and subprocess invocations are reified as an `Event` trace,
  and a raised Python exception is modelled as `none`;
* `mainRun` embeds the `__main__` dispatch (the script falls off the end
  of `__main__` without `sys.exit`, hence exit status 0 on every
  non-raising path).
-/

namespace Disparrange

/-- Mirrors the Python class `OutputDevice`: probe record with a name, a
connection flag and the list of mode tokens split on `x` (the Python code
stores the two split substrings unconverted). -/
structure OutputDevice where
  name : String
  is_connected : Bool
  modes : List (String × String)
deriving Repr, DecidableEq

/-- Mirrors `OutputDevice.add_mode`, which appends the pair to `modes`. -/
def OutputDevice.add_mode (d : OutputDevice) (width height : String) : OutputDevice :=
  { d with modes := d.modes ++ [(width, height)] }

/-- A profile entry as read from the JSON file: `setup.get('output')`,
`setup.get('mode')`, `setup.get('pos', (0, 0))`. -/
structure OutputSpec where
  output : Option String
  mode : Option (Int × Int)
  pos : Option (Int × Int)
deriving Repr, DecidableEq

/-- Key of the Python dict `arg_groups`.  Activated outputs are inserted
under their name string (`arg_groups[output] = ...`); the off-loop inserts
under the `OutputDevice` object itself (`arg_groups[display] = ...`), which
we model by the device's position in the probed list plus its name
(distinct objects are never `==` to each other nor to any string). -/
inductive ArgKey where
  | name (s : String)
  | dev (idx : Nat) (devname : String)
deriving Repr, DecidableEq

/-- Observable side effects of a run: a line printed to stdout, a line
printed to stderr, or a subprocess invocation with the given argv. -/
inductive Event where
  | out (s : String)
  | err (s : String)
  | run (args : List String)
deriving Repr, DecidableEq

/-- Value returned by `set_display_setup`: the numeric error codes 1/2/3,
or the `CompletedProcess` of `subprocess.run(xrandr_args)` (identified by
its argv). -/
inductive RunResult where
  | code (n : Nat)
  | proc (args : List String)
deriving Repr, DecidableEq

def isRunEvent : Event → Bool
  | Event.run _ => true
  | _ => false

/-! ### Python string primitives -/

/-- The whitespace class of Python's `str.split()` (ASCII part). -/
def isPySpace (c : Char) : Bool :=
  c == ' ' || c == '\t' || c == '\n' || c == '\r' || c == '\x0b' || c == '\x0c'

/-- Tokeniser behind Python's no-argument `str.split()`: split on runs of
whitespace, dropping empty tokens. -/
def pyTokens : List Char → List Char → List (List Char)
  | [], cur => if cur.isEmpty then [] else [cur]
  | c :: rest, cur =>
    if isPySpace c then
      if cur.isEmpty then pyTokens rest [] else cur :: pyTokens rest []
    else
      pyTokens rest (cur ++ [c])

/-- Python `s.split()` (no argument). -/
def pySplit (s : String) : List String :=
  (pyTokens s.data []).map String.mk

/-- Splitter behind Python's `str.split(sep)` for a one-character
separator: empty fragments are kept. -/
def splitOnCharAux (sep : Char) : List Char → List Char → List (List Char)
  | [], cur => [cur]
  | c :: rest, cur =>
    if c == sep then cur :: splitOnCharAux sep rest []
    else splitOnCharAux sep rest (cur ++ [c])

/-- Python `s.split(sep)` for a one-character separator. -/
def pySplitChar (s : String) (sep : Char) : List String :=
  (splitOnCharAux sep s.data []).map String.mk

/-- Python `s.startswith(p)`. -/
def pyStartswith (s p : String) : Bool :=
  p.data.isPrefixOf s.data

/-- Python `str.splitlines` (common terminators `\n`, `\r`, `\r\n`,
`\x0b`, `\x0c`): a terminator emits the preceding chunk, and a final
unterminated nonempty chunk is also emitted. -/
def splitlinesAux : List Char → List Char → List (List Char)
  | [], cur => if cur.isEmpty then [] else [cur]
  | '\r' :: '\n' :: rest, cur => cur :: splitlinesAux rest []
  | c :: rest, cur =>
    if c == '\n' || c == '\r' || c == '\x0b' || c == '\x0c' then
      cur :: splitlinesAux rest []
    else
      splitlinesAux rest (cur ++ [c])

/-- Python `s.splitlines()`. -/
def splitlines (s : String) : List String :=
  (splitlinesAux s.data []).map String.mk

/-! ### Display prober (`get_available_displays`) -/

/-- Appending the pending `new_display` to `displays` (the two
`if new_display is not None: displays.append(new_display)` sites). -/
def flushCurrent (acc : List OutputDevice) : Option OutputDevice → List OutputDevice
  | none => acc
  | some d => acc ++ [d]

/-- The line loop of `get_available_displays`.  State: `acc` is the
`displays` list built so far, `cur` is `new_display`.  A raised exception
(IndexError on a short line, AttributeError on `None.add_mode`, TypeError
on an `x`-split of length ≠ 2) is modelled as `none`. -/
def parseLines : List String → List OutputDevice → Option OutputDevice → Option (List OutputDevice)
  | [], acc, cur => some (flushCurrent acc cur)
  | l :: rest, acc, cur =>
    if pyStartswith l "Screen" then
      parseLines rest acc cur
    else if !(pyStartswith l " ") then
      match pySplit l with
      | [] => none
      | [_] => none
      | nm :: st :: _ =>
        parseLines rest (flushCurrent acc cur) (some ⟨nm, st == "connected", []⟩)
    else
      match pySplit l with
      | [] => none
      | t :: _ =>
        match cur with
        | none => none
        | some d =>
          match pySplitChar t 'x' with
          | [w, h] => parseLines rest acc (some (d.add_mode w h))
          | _ => none

/-- `get_available_displays`, with the captured stdout of the `xrandr`
query as argument. -/
def get_available_displays (stdout : String) : Option (List OutputDevice) :=
  parseLines (splitlines stdout) [] none

/-! ### Command builder (`set_display_setup`, lines 102-132) -/

/-- Python `f'{a}x{b}'` on an int pair. -/
def posString (p : Int × Int) : String :=
  toString p.1 ++ "x" ++ toString p.2

/-- The `display_args` list built for one profile entry (lines 114-119). -/
def specArgs (output : String) (mode : Option (Int × Int)) (pos : Int × Int) : List String :=
  ["--output", output, "--pos", posString pos] ++
    (match mode with
     | some m => ["--mode", posString m]
     | none => ["--auto"])

def dictKeys (d : List (ArgKey × List String)) : List ArgKey :=
  d.map Prod.fst

/-- Python dict assignment `d[k] = v`: overwrite in place if the key is
present, append otherwise. -/
def dictInsert (k : ArgKey) (v : List String) : List (ArgKey × List String) → List (ArgKey × List String)
  | [] => [(k, v)]
  | kv :: rest => if kv.1 = k then (k, v) :: rest else kv :: dictInsert k v rest

/-- The `for setup in display_setup` loop (lines 103-120): returns the
printed warnings/errors and either an error code (`return 2`) or the
`arg_groups` dict after the loop. -/
def buildLoop (avail : List OutputDevice) : List OutputSpec → List (ArgKey × List String) →
    List Event × Except Nat (List (ArgKey × List String))
  | [], acc => ([], Except.ok acc)
  | s :: rest, acc =>
    match s.output with
    | none => ([Event.err "Output \"None\" does not exist"], Except.error 2)
    | some o =>
      match avail.filter (fun d => d.name == o) with
      | [] => ([Event.err ("Output \"" ++ o ++ "\" does not exist")], Except.error 2)
      | d :: _ =>
        let warn := if d.is_connected then []
                    else [Event.err ("warning: " ++ o ++ " is not connected")]
        let r := buildLoop avail rest
          (dictInsert (ArgKey.name o) (specArgs o s.mode (s.pos.getD (0, 0))) acc)
        (warn ++ r.1, r.2)

/-- Index supply for the off-loop: each probed `OutputDevice` object is a
distinct dict key, identified by its position in `available_displays`. -/
def enumerate (i : Nat) : List OutputDevice → List (Nat × OutputDevice)
  | [] => []
  | d :: rest => (i, d) :: enumerate (i + 1) rest

/-- One step of the off-loop (lines 126-128): skip probed outputs whose
name is already a key, otherwise insert the off group under the device
object itself. -/
def offStep (dict : List (ArgKey × List String)) (p : Nat × OutputDevice) : List (ArgKey × List String) :=
  if ArgKey.name p.2.name ∈ dictKeys dict then dict
  else dictInsert (ArgKey.dev p.1 p.2.name) ["--output", p.2.name, "--off"] dict

/-- The `for display in available_displays` off-loop (lines 126-128). -/
def addOffGroups (avail : List OutputDevice) (dict : List (ArgKey × List String)) : List (ArgKey × List String) :=
  (enumerate 0 avail).foldl offStep dict

/-- The whole argument-group construction (lines 102-128): entry loop,
the `len(arg_groups) == 0` guard (`return 3`), then the off-loop. -/
def arg_groups_result (specs : List OutputSpec) (avail : List OutputDevice) :
    List Event × Except Nat (List (ArgKey × List String)) :=
  let r := buildLoop avail specs []
  match r.2 with
  | Except.error c => (r.1, Except.error c)
  | Except.ok dict =>
    if dict.isEmpty then
      (r.1 ++ [Event.err "No connected displays were configured - aborting"], Except.error 3)
    else
      (r.1, Except.ok (addOffGroups avail dict))

/-- Python `dict.get` on the parsed profile file. -/
def lookupSetup (nm : String) : List (String × List OutputSpec) → Option (List OutputSpec)
  | [] => none
  | (k, v) :: rest => if k = nm then some v else lookupSetup nm rest

/-- `set_display_setup(setup_name, setups_file, dry_run)`.  The parsed
profile file and the stdout of the `xrandr` query are passed as values;
the result is the event trace together with the returned value, or `none`
when the probe parser raises. -/
def set_display_setup (setup_name : String) (display_setups : List (String × List OutputSpec))
    (xrandr_stdout : String) (dry_run : Bool) : Option (List Event × RunResult) :=
  match lookupSetup setup_name display_setups with
  | none => some ([Event.err ("Invalid display setup name: " ++ setup_name)], RunResult.code 1)
  | some specs =>
    let pre := [Event.out ("Activating display setup " ++ setup_name), Event.run ["xrandr"]]
    match get_available_displays xrandr_stdout with
    | none => none
    | some avail =>
      let r := arg_groups_result specs avail
      match r.2 with
      | Except.error c => some (pre ++ r.1, RunResult.code c)
      | Except.ok dict =>
        let xrandr_args := "xrandr" :: (dict.map Prod.snd).flatten
        let final_args := if dry_run then xrandr_args ++ ["--dryrun"] else xrandr_args
        let dryEvs := if dry_run
          then [Event.out ("command: " ++ String.intercalate " " final_args)]
          else []
        some (pre ++ r.1 ++ dryEvs ++ [Event.run final_args], RunResult.proc final_args)

/-- `list_display_setups(setups_file)`: prints the header and the joined
profile names; performs no subprocess invocation. -/
def list_display_setups (setups_file : String) (display_setups : List (String × List OutputSpec)) : List Event :=
  [Event.out ("The following setups are defined in " ++ setups_file ++ ":"),
   Event.out (String.intercalate "\n" (display_setups.map Prod.fst))]

/-- The `__main__` block: dispatches on the optional positional argument
and ignores `set_display_setup`'s return value, so every non-raising path
ends the script with process exit status 0. -/
def mainRun (setup_arg : Option String) (jsonfile : String)
    (display_setups : List (String × List OutputSpec)) (xrandr_stdout : String)
    (dry_run : Bool) : Option (List Event × Nat) :=
  match setup_arg with
  | none => some (list_display_setups jsonfile display_setups, 0)
  | some nm =>
    match set_display_setup nm display_setups xrandr_stdout dry_run with
    | none => none
    | some (evs, _) => some (evs, 0)

/-! ### Reference descriptions (from the specification's wording) -/

/-- The output an `ArgKey` stands for: the name itself for an activation
key, the probed device's name for an off key. -/
def keyName : ArgKey → String
  | ArgKey.name s => s
  | ArgKey.dev _ n => n

/-- The output names referenced by a profile, in entry order. -/
def profileOutputs (specs : List OutputSpec) : List String :=
  specs.filterMap OutputSpec.output

/-- Deduplication keeping the first occurrence of each element. -/
def firstOccur : List String → List String
  | [] => []
  | o :: rest => o :: (firstOccur rest).filter (fun x => x != o)

/-- `display_args` of a profile entry (position defaulted). -/
def specArgsOf (s : OutputSpec) : List String :=
  specArgs (s.output.getD "") s.mode (s.pos.getD (0, 0))

/-- The argument group contributed by the last profile entry naming `o`. -/
def lastArgsFor (o : String) (specs : List OutputSpec) : Option (List String) :=
  specs.foldl (fun acc s => if s.output = some o then some (specArgsOf s) else acc) none

/-- Reference description of the activation part of `arg_groups`, for
entries whose key is not among `ks`: keys in first-occurrence profile
order, each group taken from the last entry for that output. -/
def refActivationRestricted (ks : List ArgKey) (specs : List OutputSpec) : List (ArgKey × List String) :=
  ((firstOccur (profileOutputs specs)).filter (fun o => decide (ArgKey.name o ∉ ks))).map
    (fun o => (ArgKey.name o, (lastArgsFor o specs).getD []))

/-- Reference description of the activation part of `arg_groups`. -/
def refActivation (specs : List OutputSpec) : List (ArgKey × List String) :=
  refActivationRestricted [] specs

/-- Reference description of the off part of `arg_groups`: probed outputs
not referenced by the profile, in probe order. -/
def refOff (specs : List OutputSpec) (avail : List OutputDevice) : List (ArgKey × List String) :=
  ((enumerate 0 avail).filter (fun p => decide (p.2.name ∉ profileOutputs specs))).map
    (fun p => (ArgKey.dev p.1 p.2.name, ["--output", p.2.name, "--off"]))

/-- Reference description of the final command line: the utility name,
then the activation groups' tokens (profile order, duplicates collapsed to
the last entry), then the off groups' tokens (probe order), then the
dry-run flag when requested. -/
def refCommand (specs : List OutputSpec) (avail : List OutputDevice) (dry : Bool) : List String :=
  ("xrandr" :: ((refActivation specs ++ refOff specs avail).map Prod.snd).flatten) ++
    (if dry then ["--dryrun"] else [])

/-- The value a key of `arg_groups` holds after the remaining entries
`specs` have been processed, given that it held `v` before. -/
def overrideVal (specs : List OutputSpec) (k : ArgKey) (v : List String) : List String :=
  match k with
  | ArgKey.name o => (lastArgsFor o specs).getD v
  | ArgKey.dev _ _ => v

/-! ### Claim-rendering predicates for the prober's input precondition -/

/-- A line that starts with any whitespace character (the literal reading
of "whitespace-indented"). -/
def wsIndented (l : String) : Bool :=
  match l.data with
  | [] => false
  | c :: _ => c.isWhitespace

/-- A header candidate under the literal whitespace reading. -/
def origHeaderish (l : String) : Bool :=
  !(pyStartswith l "Screen") && !(wsIndented l)

/-- A header candidate as the code classifies lines: neither a `Screen`
line nor starting with a space character. -/
def headerLine (l : String) : Bool :=
  !(pyStartswith l "Screen") && !(pyStartswith l " ")

/-- The prober input precondition exactly as the claim words it, with
"whitespace" read literally: header candidates carry at least two
whitespace-separated tokens, and every whitespace-indented non-`Screen`
line has an earlier header candidate. -/
def origPrecondition (stdout : String) : Prop :=
  let L := splitlines stdout
  (∀ i, i < L.length → origHeaderish (L.getD i "") = true → 2 ≤ (pySplit (L.getD i "")).length)
  ∧ (∀ i, i < L.length → (wsIndented (L.getD i "") && !(pyStartswith (L.getD i "") "Screen")) = true →
      ∃ j, j < i ∧ origHeaderish (L.getD j "") = true)

/-- The prober input precondition with indentation read as the code reads
it: a line counts as indented only when it starts with a space character. -/
def amendPrecondition (stdout : String) : Prop :=
  let L := splitlines stdout
  (∀ i, i < L.length → headerLine (L.getD i "") = true → 2 ≤ (pySplit (L.getD i "")).length)
  ∧ (∀ i, i < L.length → (pyStartswith (L.getD i "") " " && !(pyStartswith (L.getD i "") "Screen")) = true →
      ∃ j, j < i ∧ headerLine (L.getD j "") = true)

/-! ## Helper lemmas -/

/-- If some profile entry references an output name absent from the probed
list, the entry loop returns the error code 2, whatever the accumulated
dict is. -/
theorem buildLoop_snd_error_of_unknown (avail : List OutputDevice) (specs : List OutputSpec) :
    ∀ acc : List (ArgKey × List String),
      (∃ s ∈ specs, ∃ o, s.output = some o ∧ o ∉ avail.map OutputDevice.name) →
      (buildLoop avail specs acc).2 = Except.error 2 := by
  induction specs with
  | nil =>
    intro acc hbad
    obtain ⟨s, hs, -⟩ := hbad
    simp at hs
  | cons s rest ih =>
    intro acc hbad
    rcases hso : s.output with - | o
    · simp [buildLoop, hso]
    · rcases hf : avail.filter (fun d => d.name == o) with - | ⟨d, ds⟩
      · simp [buildLoop, hso, hf]
      · simp only [buildLoop, hso, hf]
        apply ih
        obtain ⟨t, ht, o', hto, hno⟩ := hbad
        rcases List.mem_cons.mp ht with hts | htr
        · exfalso
          have hd : d ∈ avail.filter (fun dd => dd.name == o) := by rw [hf]; exact List.mem_cons_self d ds
          have := List.mem_filter.mp hd
          apply hno
          have ho : o' = o := by
            rw [hts] at hto
            rw [hso] at hto
            exact (Option.some_inj.mp hto).symm
          rw [ho]
          rw [← beq_iff_eq.mp this.2]
          exact List.mem_map_of_mem OutputDevice.name this.1
        · exact ⟨t, htr, o', hto, hno⟩

/-- The entry loop prints only to stderr (warnings and the unknown-output
message); it never performs a subprocess invocation. -/
theorem buildLoop_events_no_run (avail : List OutputDevice) (specs : List OutputSpec) :
    ∀ acc : List (ArgKey × List String), ((buildLoop avail specs acc).1).filter isRunEvent = [] := by
  induction specs with
  | nil => intro acc; rfl
  | cons s rest ih =>
    intro acc
    rcases hso : s.output with - | o
    · simp [buildLoop, hso, isRunEvent]
    · rcases hf : avail.filter (fun d => d.name == o) with - | ⟨d, ds⟩
      · simp [buildLoop, hso, hf, isRunEvent]
      · simp only [buildLoop, hso, hf, List.filter_append]
        rw [ih]
        rcases d.is_connected with - | -
        · simp [isRunEvent]
        · simp [isRunEvent]

/-- Folding the last-entry search from a `some` seed yields the unseeded
result with the seed as default. -/
theorem foldl_lastArgs_seed (o : String) (specs : List OutputSpec) : ∀ a : List String,
    specs.foldl (fun acc s => if s.output = some o then some (specArgsOf s) else acc) (some a)
      = some ((specs.foldl
          (fun acc s => if s.output = some o then some (specArgsOf s) else acc) none).getD a) := by
  induction specs with
  | nil => intro a; rfl
  | cons s rest ih =>
    intro a
    by_cases h : s.output = some o
    · rw [List.foldl_cons, List.foldl_cons, if_pos h, if_pos h, ih]
      rfl
    · rw [List.foldl_cons, List.foldl_cons, if_neg h, if_neg h, ih]

/-- `lastArgsFor` over a cons whose head names `o`. -/
theorem lastArgsFor_cons_eq (o : String) (s : OutputSpec) (rest : List OutputSpec)
    (h : s.output = some o) :
    lastArgsFor o (s :: rest) = some ((lastArgsFor o rest).getD (specArgsOf s)) := by
  unfold lastArgsFor
  rw [List.foldl_cons, if_pos h, foldl_lastArgs_seed]

/-- `lastArgsFor` over a cons whose head does not name `o`. -/
theorem lastArgsFor_cons_ne (o : String) (s : OutputSpec) (rest : List OutputSpec)
    (h : s.output ≠ some o) :
    lastArgsFor o (s :: rest) = lastArgsFor o rest := by
  unfold lastArgsFor
  rw [List.foldl_cons, if_neg h]

/-- An output not referenced by the profile has no last entry. -/
theorem lastArgsFor_eq_none_of_not_mem (o : String) (specs : List OutputSpec) :
    o ∉ profileOutputs specs → lastArgsFor o specs = none := by
  induction specs with
  | nil => intro; rfl
  | cons s rest ih =>
    intro hno
    have hso : s.output ≠ some o := by
      intro hcontra
      exact hno (by simp [profileOutputs, List.filterMap_cons, hcontra])
    rw [lastArgsFor_cons_ne o s rest hso]
    exact ih (fun hmem => hno (by
      simp only [profileOutputs, List.filterMap_cons]
      rcases s.output with - | o'
      · exact hmem
      · exact List.mem_cons_of_mem o' hmem))

/-- A referenced output's group comes from some entry naming it — the last
one, as `lastArgsFor` folds left keeping the latest match. -/
theorem lastArgsFor_of_mem (o : String) (specs : List OutputSpec) :
    o ∈ profileOutputs specs →
    ∃ s ∈ specs, s.output = some o ∧ lastArgsFor o specs = some (specArgsOf s) := by
  induction specs with
  | nil => intro h; simp [profileOutputs] at h
  | cons s rest ih =>
    intro hmem
    by_cases hr : o ∈ profileOutputs rest
    · obtain ⟨t, ht, hto, hlast⟩ := ih hr
      by_cases hso : s.output = some o
      · exact ⟨t, List.mem_cons_of_mem s ht, hto,
          by rw [lastArgsFor_cons_eq o s rest hso, hlast]; rfl⟩
      · exact ⟨t, List.mem_cons_of_mem s ht, hto,
          by rw [lastArgsFor_cons_ne o s rest hso, hlast]⟩
    · have hso : s.output = some o := by
        simp only [profileOutputs, List.filterMap_cons] at hmem
        rcases hout : s.output with - | o'
        · rw [hout] at hmem; exact absurd hmem hr
        · rw [hout] at hmem
          rcases List.mem_cons.mp hmem with h1 | h2
          · rw [h1]
          · exact absurd h2 hr
      refine ⟨s, List.mem_cons_self s rest, hso, ?_⟩
      rw [lastArgsFor_cons_eq o s rest hso, lastArgsFor_eq_none_of_not_mem o rest hr]
      rfl

/-- Membership in the first-occurrence deduplication. -/
theorem mem_firstOccur (x : String) (l : List String) : x ∈ firstOccur l ↔ x ∈ l := by
  induction l with
  | nil => simp [firstOccur]
  | cons o rest ih =>
    simp only [firstOccur, List.mem_cons]
    constructor
    · rintro (h1 | h2)
      · exact Or.inl h1
      · exact Or.inr (ih.mp (List.mem_filter.mp h2).1)
    · rintro (h1 | h2)
      · exact Or.inl h1
      · by_cases hx : x = o
        · exact Or.inl hx
        · exact Or.inr (List.mem_filter.mpr ⟨ih.mpr h2, by simp [hx]⟩)

/-- Inserting an absent key appends the pair. -/
theorem dictInsert_append_of_not_mem (k : ArgKey) (v : List String) :
    ∀ d : List (ArgKey × List String), k ∉ dictKeys d → dictInsert k v d = d ++ [(k, v)] := by
  intro d
  induction d with
  | nil => intro; rfl
  | cons kv tl ih =>
    intro hk
    have h1 : kv.1 ≠ k := by
      intro hcontra
      exact hk (by simp [dictKeys, hcontra])
    have h2 : k ∉ dictKeys tl := fun hmem => hk (by simp [dictKeys] at hmem ⊢; exact Or.inr hmem)
    simp only [dictInsert, if_neg h1, ih h2, List.cons_append]

/-- Inserting a present key keeps the key list unchanged. -/
theorem dictKeys_dictInsert_of_mem (k : ArgKey) (v : List String) :
    ∀ d : List (ArgKey × List String), k ∈ dictKeys d →
      dictKeys (dictInsert k v d) = dictKeys d := by
  intro d
  induction d with
  | nil => intro h; simp [dictKeys] at h
  | cons kv tl ih =>
    intro hk
    by_cases h1 : kv.1 = k
    · simp [dictInsert, if_pos h1, dictKeys, h1]
    · have h2 : k ∈ dictKeys tl := by
        simp only [dictKeys, List.map_cons, List.mem_cons] at hk
        rcases hk with ha | hb
        · exact absurd ha.symm h1
        · exact hb
      have h3 := ih h2
      simp only [dictKeys] at h3 ⊢
      simp [dictInsert, if_neg h1, h3]

/-- `dictInsert` preserves key distinctness. -/
theorem dictKeys_dictInsert_nodup (k : ArgKey) (v : List String)
    (d : List (ArgKey × List String)) (h : (dictKeys d).Nodup) :
    (dictKeys (dictInsert k v d)).Nodup := by
  by_cases hk : k ∈ dictKeys d
  · rw [dictKeys_dictInsert_of_mem k v d hk]; exact h
  · rw [dictInsert_append_of_not_mem k v d hk]
    simp only [dictKeys, List.map_append, List.map_cons, List.map_nil]
    rw [List.nodup_append]
    exact ⟨h, List.nodup_singleton k, by
      intro a ha hb
      simp only [List.mem_singleton] at hb
      rw [hb] at ha
      exact hk ha⟩

/-- No remaining entries: a key's value is untouched. -/
theorem overrideVal_nil (k : ArgKey) (v : List String) : overrideVal [] k v = v := by
  cases k <;> rfl

/-- An entry naming `o` does not affect keys other than `name o`. -/
theorem overrideVal_cons_ne (s : OutputSpec) (rest : List OutputSpec) (o : String) (k : ArgKey)
    (v : List String) (hso : s.output = some o) (hk : k ≠ ArgKey.name o) :
    overrideVal (s :: rest) k v = overrideVal rest k v := by
  cases k with
  | dev i n => rfl
  | name o' =>
    have hne : o' ≠ o := fun h => hk (by rw [h])
    simp only [overrideVal]
    rw [lastArgsFor_cons_ne o' s rest
      (by rw [hso]; intro hc; exact hne (Option.some_inj.mp hc).symm)]

/-- Override by the empty entry list is the identity on dicts. -/
theorem map_override_nil (acc : List (ArgKey × List String)) :
    acc.map (fun kv => (kv.1, overrideVal [] kv.1 kv.2)) = acc := by
  have h : ∀ kv : ArgKey × List String, (kv.1, overrideVal [] kv.1 kv.2) = kv := by
    rintro ⟨k, v⟩
    rw [overrideVal_nil]
  calc acc.map (fun kv => (kv.1, overrideVal [] kv.1 kv.2))
      = acc.map (fun kv => kv) := List.map_congr_left (fun a _ => h a)
    _ = acc := List.map_id' acc

/-- Inserting an entry whose key is already present and then letting the
remaining entries override is the same as letting all entries override the
original dict. -/
theorem map_override_dictInsert_mem (o : String) (s : OutputSpec) (rest : List OutputSpec)
    (hso : s.output = some o) :
    ∀ acc : List (ArgKey × List String), ArgKey.name o ∈ dictKeys acc → (dictKeys acc).Nodup →
      (dictInsert (ArgKey.name o) (specArgsOf s) acc).map
          (fun kv => (kv.1, overrideVal rest kv.1 kv.2))
        = acc.map (fun kv => (kv.1, overrideVal (s :: rest) kv.1 kv.2)) := by
  intro acc
  induction acc with
  | nil => intro h _; simp [dictKeys] at h
  | cons kv tl ih =>
    intro hmem hnd
    have hkeys : dictKeys (kv :: tl) = kv.1 :: dictKeys tl := by simp [dictKeys]
    by_cases hk : kv.1 = ArgKey.name o
    · simp only [dictInsert, if_pos hk, List.map_cons]
      congr 1
      · rw [hk]
        simp only [overrideVal]
        rw [lastArgsFor_cons_eq o s rest hso]
        rfl
      · have hnotl : ArgKey.name o ∉ dictKeys tl := by
          rw [hkeys] at hnd
          rw [← hk]
          exact (List.nodup_cons.mp hnd).1
        apply List.map_congr_left
        rintro ⟨k', v'⟩ hin
        have hne : k' ≠ ArgKey.name o := by
          intro hc
          apply hnotl
          rw [← hc]
          exact List.mem_map_of_mem Prod.fst hin
        rw [overrideVal_cons_ne s rest o k' v' hso hne]
    · simp only [dictInsert, if_neg hk, List.map_cons]
      congr 1
      · rw [overrideVal_cons_ne s rest o kv.1 kv.2 hso hk]
      · apply ih
        · rw [hkeys] at hmem
          rcases List.mem_cons.mp hmem with h1 | h2
          · exact absurd h1.symm hk
          · exact h2
        · rw [hkeys] at hnd
          exact hnd.of_cons

/-- The head entry changes nothing in the restricted reference dict when
its key is excluded. -/
theorem refAR_cons_mem (ks : List ArgKey) (s : OutputSpec) (rest : List OutputSpec) (o : String)
    (hso : s.output = some o) (hk : ArgKey.name o ∈ ks) :
    refActivationRestricted ks (s :: rest) = refActivationRestricted ks rest := by
  unfold refActivationRestricted
  have hP : profileOutputs (s :: rest) = o :: profileOutputs rest := by
    simp [profileOutputs, hso]
  rw [hP]
  have hdec : decide (ArgKey.name o ∉ ks) = false := by simp [hk]
  rw [show firstOccur (o :: profileOutputs rest)
      = o :: (firstOccur (profileOutputs rest)).filter (fun x => x != o) from rfl]
  rw [List.filter_cons]
  rw [if_neg (by simp [hdec])]
  rw [List.filter_filter]
  have hfc : (firstOccur (profileOutputs rest)).filter
        (fun a => decide (ArgKey.name a ∉ ks) && (a != o))
      = (firstOccur (profileOutputs rest)).filter (fun a => decide (ArgKey.name a ∉ ks)) := by
    apply List.filter_congr
    intro x _
    by_cases hxo : x = o
    · subst hxo
      simp [hk]
    · simp [hxo]
  rw [hfc]
  apply List.map_congr_left
  intro x hx
  have hxks : ArgKey.name x ∉ ks := by simpa using (List.mem_filter.mp hx).2
  have hxo : x ≠ o := fun h => hxks (h ▸ hk)
  have hne : s.output ≠ some x := by
    rw [hso]
    intro hc
    exact hxo (Option.some_inj.mp hc).symm
  rw [lastArgsFor_cons_ne x s rest hne]

/-- The head entry of a fresh key contributes the leading reference entry,
with its group overridden by later duplicates. -/
theorem refAR_cons_not_mem (ks : List ArgKey) (s : OutputSpec) (rest : List OutputSpec)
    (o : String) (hso : s.output = some o) (hk : ArgKey.name o ∉ ks) :
    refActivationRestricted ks (s :: rest)
      = (ArgKey.name o, (lastArgsFor o rest).getD (specArgsOf s))
          :: refActivationRestricted (ks ++ [ArgKey.name o]) rest := by
  unfold refActivationRestricted
  have hP : profileOutputs (s :: rest) = o :: profileOutputs rest := by
    simp [profileOutputs, hso]
  rw [hP]
  rw [show firstOccur (o :: profileOutputs rest)
      = o :: (firstOccur (profileOutputs rest)).filter (fun x => x != o) from rfl]
  rw [List.filter_cons]
  rw [if_pos (by simp [hk])]
  rw [List.map_cons]
  congr 1
  · rw [lastArgsFor_cons_eq o s rest hso]
    rfl
  · rw [List.filter_filter]
    have hfc : (firstOccur (profileOutputs rest)).filter
          (fun a => decide (ArgKey.name a ∉ ks) && (a != o))
        = (firstOccur (profileOutputs rest)).filter
          (fun a => decide (ArgKey.name a ∉ ks ++ [ArgKey.name o])) := by
      apply List.filter_congr
      intro x _
      by_cases hxo : x = o
      · subst hxo
        simp
      · have : (ArgKey.name x = ArgKey.name o) = False := by
          simp [hxo]
        simp [List.mem_append, this, hxo]
    rw [hfc]
    apply List.map_congr_left
    intro x hx
    have hxmem := (List.mem_filter.mp hx).2
    have hxo : x ≠ o := by
      intro h
      subst h
      simp at hxmem
    have hne : s.output ≠ some x := by
      rw [hso]
      intro hc
      exact hxo (Option.some_inj.mp hc).symm
    rw [lastArgsFor_cons_ne x s rest hne]

/-- Characterization of the entry loop's dict on success: the starting
dict with its values overridden by later duplicates, followed by fresh
keys in first-occurrence profile order carrying the last entry's group. -/
theorem buildLoop_ok_dict (avail : List OutputDevice) (specs : List OutputSpec) :
    ∀ acc dict : List (ArgKey × List String),
      (dictKeys acc).Nodup →
      (buildLoop avail specs acc).2 = Except.ok dict →
      dict = acc.map (fun kv => (kv.1, overrideVal specs kv.1 kv.2))
          ++ refActivationRestricted (dictKeys acc) specs := by
  induction specs with
  | nil =>
    intro acc dict _ hok
    simp only [buildLoop] at hok
    have hacc : acc = dict := by injection hok
    rw [← hacc, map_override_nil]
    simp [refActivationRestricted, profileOutputs, firstOccur]
  | cons s rest ih =>
    intro acc dict hnd hok
    rcases hso : s.output with - | o
    · simp only [buildLoop, hso] at hok
      exact absurd hok (by simp)
    · rcases hf : avail.filter (fun d => d.name == o) with - | ⟨d, ds⟩
      · simp only [buildLoop, hso, hf] at hok
        exact absurd hok (by simp)
      · simp only [buildLoop, hso, hf] at hok
        have hsp : specArgs o s.mode (s.pos.getD (0, 0)) = specArgsOf s := by
          simp [specArgsOf, hso]
        rw [hsp] at hok
        have hres := ih (dictInsert (ArgKey.name o) (specArgsOf s) acc) dict
          (dictKeys_dictInsert_nodup (ArgKey.name o) (specArgsOf s) acc hnd) hok
        by_cases hmem : ArgKey.name o ∈ dictKeys acc
        · rw [map_override_dictInsert_mem o s rest hso acc hmem hnd] at hres
          rw [dictKeys_dictInsert_of_mem (ArgKey.name o) (specArgsOf s) acc hmem] at hres
          rw [hres, refAR_cons_mem (dictKeys acc) s rest o hso hmem]
        · rw [dictInsert_append_of_not_mem (ArgKey.name o) (specArgsOf s) acc hmem] at hres
          rw [List.map_append] at hres
          have hkeys : dictKeys (acc ++ [(ArgKey.name o, specArgsOf s)])
              = dictKeys acc ++ [ArgKey.name o] := by
            simp [dictKeys]
          rw [hkeys] at hres
          have hmapacc : acc.map (fun kv => (kv.1, overrideVal rest kv.1 kv.2))
              = acc.map (fun kv => (kv.1, overrideVal (s :: rest) kv.1 kv.2)) := by
            apply List.map_congr_left
            rintro ⟨k', v'⟩ hin
            have hne : k' ≠ ArgKey.name o := by
              intro hc
              apply hmem
              rw [← hc]
              exact List.mem_map_of_mem Prod.fst hin
            rw [overrideVal_cons_ne s rest o k' v' hso hne]
          rw [hmapacc] at hres
          rw [hres, refAR_cons_not_mem (dictKeys acc) s rest o hso hmem]
          rw [List.append_assoc]
          rfl

/-- Starting from the empty dict, success of the entry loop yields exactly
the reference activation dict. -/
theorem buildLoop_ok_refActivation (avail : List OutputDevice) (specs : List OutputSpec)
    (dict : List (ArgKey × List String))
    (hok : (buildLoop avail specs []).2 = Except.ok dict) :
    dict = refActivation specs := by
  have h := buildLoop_ok_dict avail specs [] dict (by simp [dictKeys]) hok
  simpa [refActivation, dictKeys] using h

/-- Indices produced by `enumerate` start at the given base. -/
theorem enumerate_fst_ge (avail : List OutputDevice) : ∀ i, ∀ p ∈ enumerate i avail, i ≤ p.1 := by
  induction avail with
  | nil => intro i p hp; simp [enumerate] at hp
  | cons d rest ih =>
    intro i p hp
    simp only [enumerate, List.mem_cons] at hp
    rcases hp with h1 | h2
    · rw [h1]
    · exact Nat.le_of_succ_le (ih (i + 1) p h2)

/-- Indices produced by `enumerate` are pairwise distinct. -/
theorem enumerate_map_fst_nodup (avail : List OutputDevice) :
    ∀ i, ((enumerate i avail).map Prod.fst).Nodup := by
  induction avail with
  | nil => intro i; simp [enumerate]
  | cons d rest ih =>
    intro i
    simp only [enumerate, List.map_cons]
    rw [List.nodup_cons]
    refine ⟨?_, ih (i + 1)⟩
    intro hmem
    obtain ⟨p, hp, hpi⟩ := List.mem_map.mp hmem
    have := enumerate_fst_ge rest (i + 1) p hp
    omega

/-- Characterization of the off-loop fold: device keys being fresh, it
appends one off group per indexed device whose name is not among the
dict's name keys. -/
theorem offFold_eq (l : List (Nat × OutputDevice)) :
    ∀ cur : List (ArgKey × List String),
      (∀ i n, ArgKey.dev i n ∈ dictKeys cur → i ∉ l.map Prod.fst) →
      (l.map Prod.fst).Nodup →
      l.foldl offStep cur
        = cur ++ (l.filter (fun p => decide (ArgKey.name p.2.name ∉ dictKeys cur))).map
            (fun p => (ArgKey.dev p.1 p.2.name, ["--output", p.2.name, "--off"])) := by
  induction l with
  | nil => intro cur _ _; simp
  | cons p rest ih =>
    intro cur hdev hnd
    simp only [List.map_cons] at hnd
    rw [List.foldl_cons]
    by_cases hmem : ArgKey.name p.2.name ∈ dictKeys cur
    · rw [show offStep cur p = cur from by simp [offStep, hmem]]
      rw [List.filter_cons, if_neg (by simp [hmem])]
      exact ih cur
        (fun i n hin hr => hdev i n hin (by simp only [List.map_cons, List.mem_cons]; exact Or.inr hr))
        hnd.of_cons
    · have hdevp : ArgKey.dev p.1 p.2.name ∉ dictKeys cur := by
        intro hin
        exact hdev p.1 p.2.name hin (by simp)
      have hstep : offStep cur p
          = cur ++ [(ArgKey.dev p.1 p.2.name, ["--output", p.2.name, "--off"])] := by
        rw [offStep, if_neg hmem]
        exact dictInsert_append_of_not_mem _ _ cur hdevp
      rw [hstep]
      have hkeys : dictKeys (cur ++ [(ArgKey.dev p.1 p.2.name, ["--output", p.2.name, "--off"])])
          = dictKeys cur ++ [ArgKey.dev p.1 p.2.name] := by
        simp [dictKeys]
      rw [ih (cur ++ [(ArgKey.dev p.1 p.2.name, ["--output", p.2.name, "--off"])])
        (by
          intro i n hin hr
          rw [hkeys] at hin
          rcases List.mem_append.mp hin with h1 | h2
          · exact hdev i n h1 (by simp only [List.map_cons, List.mem_cons]; exact Or.inr hr)
          · simp only [List.mem_singleton] at h2
            have hi : i = p.1 := by injection h2
            rw [hi] at hr
            exact (List.nodup_cons.mp hnd).1 hr)
        hnd.of_cons]
      have hfilter : rest.filter (fun q => decide (ArgKey.name q.2.name
            ∉ dictKeys (cur ++ [(ArgKey.dev p.1 p.2.name, ["--output", p.2.name, "--off"])])))
          = rest.filter (fun q => decide (ArgKey.name q.2.name ∉ dictKeys cur)) := by
        apply List.filter_congr
        intro q _
        rw [hkeys]
        simp [List.mem_append]
      rw [hfilter, List.filter_cons, if_pos (by simp [hmem]), List.map_cons, List.append_assoc]
      rfl

/-- The keys of the reference activation dict are the profile's outputs,
first occurrences in order, as name keys. -/
theorem dictKeys_refActivation (specs : List OutputSpec) :
    dictKeys (refActivation specs) = (firstOccur (profileOutputs specs)).map ArgKey.name := by
  unfold refActivation refActivationRestricted dictKeys
  rw [List.map_map]
  simp

/-- Running the off-loop over the reference activation dict appends
exactly the reference off groups. -/
theorem addOffGroups_refActivation (specs : List OutputSpec) (avail : List OutputDevice) :
    addOffGroups avail (refActivation specs) = refActivation specs ++ refOff specs avail := by
  unfold addOffGroups refOff
  rw [offFold_eq (enumerate 0 avail) (refActivation specs)
    (by
      intro i n hin
      rw [dictKeys_refActivation] at hin
      obtain ⟨x, -, hx⟩ := List.mem_map.mp hin
      exact absurd hx (by simp))
    (enumerate_map_fst_nodup avail 0)]
  congr 1
  apply congrArg
  apply List.filter_congr
  intro q _
  rw [dictKeys_refActivation]
  simp [List.mem_map, mem_firstOccur]

/-- Full characterization of the builder's dict on success. -/
theorem arg_groups_ok_eq (specs : List OutputSpec) (avail : List OutputDevice)
    (dict : List (ArgKey × List String))
    (hok : (arg_groups_result specs avail).2 = Except.ok dict) :
    dict = refActivation specs ++ refOff specs avail := by
  simp only [arg_groups_result] at hok
  rcases hbl : (buildLoop avail specs []).2 with c | d0
  · rw [hbl] at hok
    simp at hok
  · rw [hbl] at hok
    by_cases hemp : d0.isEmpty
    · simp [hemp] at hok
    · simp only [hemp, if_false, Bool.false_eq_true] at hok
      have hd0 : addOffGroups avail d0 = dict := by
        simpa using hok
      rw [← hd0, buildLoop_ok_refActivation avail specs d0 hbl]
      exact addOffGroups_refActivation specs avail

/-- When the line loop returns normally, every header-classified line had
at least two whitespace-separated tokens, and — when no record was open at
entry — every space-indented non-`Screen` line was preceded by a
header-classified line. -/
theorem parseLines_ok_precondition (lines : List String) :
    ∀ (acc : List OutputDevice) (cur : Option OutputDevice) (r : List OutputDevice),
      parseLines lines acc cur = some r →
      (∀ i, i < lines.length → headerLine (lines.getD i "") = true →
          2 ≤ (pySplit (lines.getD i "")).length)
      ∧ (cur = none → ∀ i, i < lines.length →
          (pyStartswith (lines.getD i "") " " && !(pyStartswith (lines.getD i "") "Screen")) = true →
          ∃ j, j < i ∧ headerLine (lines.getD j "") = true) := by
  induction lines with
  | nil =>
    intro acc cur r _
    exact ⟨fun i hi => absurd hi (by simp), fun _ i hi => absurd hi (by simp)⟩
  | cons l rest ih =>
    intro acc cur r hp
    by_cases hscr : pyStartswith l "Screen" = true
    · rw [parseLines, if_pos hscr] at hp
      obtain ⟨ih1, ih2⟩ := ih acc cur r hp
      constructor
      · intro i hi hhl
        cases i with
        | zero =>
          rw [List.getD_cons_zero] at hhl
          rw [headerLine, hscr] at hhl
          simp at hhl
        | succ n =>
          rw [List.getD_cons_succ] at hhl ⊢
          exact ih1 n (by simpa using Nat.lt_of_succ_lt_succ hi) hhl
      · intro hcur i hi hind
        cases i with
        | zero =>
          rw [List.getD_cons_zero] at hind
          rw [hscr] at hind
          simp at hind
        | succ n =>
          rw [List.getD_cons_succ] at hind
          obtain ⟨j, hj, hhl⟩ := ih2 hcur n (by simpa using Nat.lt_of_succ_lt_succ hi) hind
          exact ⟨j + 1, Nat.succ_lt_succ hj, by rw [List.getD_cons_succ]; exact hhl⟩
    · have hscr' : pyStartswith l "Screen" = false := by simpa using hscr
      by_cases hsp : pyStartswith l " " = true
      · -- indented line: a record must be open, and a well-formed token split
        rw [parseLines, if_neg hscr, if_neg (by simp [hsp])] at hp
        rcases hts : pySplit l with - | ⟨t, ts⟩
        · simp [hts] at hp
        · simp only [hts] at hp
          cases cur with
          | none => exact absurd hp (by simp)
          | some d =>
            rcases hxx : pySplitChar t 'x' with - | ⟨w, - | ⟨h, - | ⟨z, zs⟩⟩⟩
            · simp [hxx] at hp
            · simp [hxx] at hp
            · simp only [hxx] at hp
              obtain ⟨ih1, -⟩ := ih acc (some (d.add_mode w h)) r hp
              constructor
              · intro i hi hhl
                cases i with
                | zero =>
                  rw [List.getD_cons_zero] at hhl
                  rw [headerLine, hsp] at hhl
                  simp at hhl
                | succ n =>
                  rw [List.getD_cons_succ] at hhl ⊢
                  exact ih1 n (by simpa using Nat.lt_of_succ_lt_succ hi) hhl
              · intro hcur
                exact absurd hcur (by simp)
            · simp [hxx] at hp
      · -- header line: at least two tokens or the parser raises
        have hsp' : pyStartswith l " " = false := by simpa using hsp
        rw [parseLines, if_neg hscr, if_pos (by simp [hsp'])] at hp
        rcases hts : pySplit l with - | ⟨t1, - | ⟨t2, ts⟩⟩
        · simp [hts] at hp
        · simp [hts] at hp
        · simp only [hts] at hp
          obtain ⟨ih1, -⟩ := ih (flushCurrent acc cur) (some ⟨t1, t2 == "connected", []⟩) r hp
          constructor
          · intro i hi hhl
            cases i with
            | zero =>
              rw [List.getD_cons_zero]
              rw [hts]
              simp
            | succ n =>
              rw [List.getD_cons_succ] at hhl ⊢
              exact ih1 n (by simpa using Nat.lt_of_succ_lt_succ hi) hhl
          · intro hcur i hi hind
            cases i with
            | zero =>
              rw [List.getD_cons_zero] at hind
              rw [hsp'] at hind
              simp at hind
            | succ n =>
              refine ⟨0, Nat.succ_pos n, ?_⟩
              rw [List.getD_cons_zero]
              simp [headerLine, hscr', hsp']

/-! ## Claim theorems -/

/-- C3: whenever the chosen profile references an output name absent from
the probed list, the builder fails with error code 2, the run's result is
the code 2 (no argument groups), and the only subprocess event in the
trace is the probe — the apply invocation never happens. -/
theorem C3_unknown_output_aborts (setup_name : String)
    (display_setups : List (String × List OutputSpec)) (xrandr_stdout : String) (dry_run : Bool)
    (specs : List OutputSpec) (avail : List OutputDevice)
    (hlook : lookupSetup setup_name display_setups = some specs)
    (hprobe : get_available_displays xrandr_stdout = some avail)
    (hbad : ∃ s ∈ specs, ∃ o, s.output = some o ∧ o ∉ avail.map OutputDevice.name) :
    (arg_groups_result specs avail).2 = Except.error 2
    ∧ ∃ evs, set_display_setup setup_name display_setups xrandr_stdout dry_run
          = some (evs, RunResult.code 2)
        ∧ evs.filter isRunEvent = [Event.run ["xrandr"]] := by
  have herr := buildLoop_snd_error_of_unknown avail specs [] hbad
  have hagr : arg_groups_result specs avail
      = ((buildLoop avail specs []).1, Except.error 2) := by
    simp only [arg_groups_result, herr]
  refine ⟨by rw [hagr], ?_⟩
  refine ⟨[Event.out ("Activating display setup " ++ setup_name), Event.run ["xrandr"]]
      ++ (buildLoop avail specs []).1, ?_, ?_⟩
  · simp only [set_display_setup, hlook, hprobe, hagr]
  · rw [List.filter_append, buildLoop_events_no_run avail specs []]
    rfl

/-- Witness for C3: profile `p` references `DP-9`, which the probe does
not report. -/
theorem C3_unknown_output_aborts_witness :
    (arg_groups_result [⟨some "DP-9", none, none⟩] [⟨"eDP-1", true, []⟩]).2 = Except.error 2
    ∧ ∃ evs, set_display_setup "p" [("p", [⟨some "DP-9", none, none⟩])] "eDP-1 connected" false
          = some (evs, RunResult.code 2)
        ∧ evs.filter isRunEvent = [Event.run ["xrandr"]] :=
  C3_unknown_output_aborts "p" [("p", [⟨some "DP-9", none, none⟩])] "eDP-1 connected" false
    [⟨some "DP-9", none, none⟩] [⟨"eDP-1", true, []⟩] rfl rfl
    ⟨⟨some "DP-9", none, none⟩, by decide, "DP-9", rfl, by decide⟩

/-- C9: whenever the run reaches the apply invocation, the final command
line equals the reference command: the utility name, then the activation
groups' tokens in first-occurrence profile order with a duplicated output
contributing one group holding the last entry's content, then the off
groups in probe order (then the dry-run flag when requested). -/
theorem C9_final_command (setup_name : String) (display_setups : List (String × List OutputSpec))
    (xrandr_stdout : String) (dry_run : Bool) (evs : List Event) (xargs : List String)
    (h : set_display_setup setup_name display_setups xrandr_stdout dry_run
        = some (evs, RunResult.proc xargs)) :
    ∃ specs avail, lookupSetup setup_name display_setups = some specs
      ∧ get_available_displays xrandr_stdout = some avail
      ∧ xargs = refCommand specs avail dry_run := by
  rcases hlook : lookupSetup setup_name display_setups with - | specs
  · simp only [set_display_setup, hlook] at h
    exact absurd h (by simp)
  · rcases hprobe : get_available_displays xrandr_stdout with - | avail
    · simp only [set_display_setup, hlook, hprobe] at h
      exact absurd h (by simp)
    · refine ⟨specs, avail, rfl, rfl, ?_⟩
      simp only [set_display_setup, hlook, hprobe] at h
      rcases hagr : (arg_groups_result specs avail).2 with c | dict
      · rw [hagr] at h
        exact absurd h (by simp)
      · rw [hagr] at h
        simp only [Option.some.injEq, Prod.mk.injEq, RunResult.proc.injEq] at h
        rw [← h.2, arg_groups_ok_eq specs avail dict hagr]
        cases dry_run
        · simp [refCommand]
        · simp [refCommand]

/-- Witness for C9 at a concrete profile and probe. -/
theorem C9_final_command_witness :
    ∃ specs avail, lookupSetup "solo" [("solo", [⟨some "eDP-1", none, none⟩])] = some specs
      ∧ get_available_displays "eDP-1 connected\nDP-1 disconnected" = some avail
      ∧ ["xrandr", "--output", "eDP-1", "--pos", "0x0", "--auto", "--output", "DP-1", "--off"]
          = refCommand specs avail false :=
  C9_final_command "solo" [("solo", [⟨some "eDP-1", none, none⟩])]
    "eDP-1 connected\nDP-1 disconnected" false
    [Event.out "Activating display setup solo", Event.run ["xrandr"],
     Event.run ["xrandr", "--output", "eDP-1", "--pos", "0x0", "--auto",
       "--output", "DP-1", "--off"]]
    ["xrandr", "--output", "eDP-1", "--pos", "0x0", "--auto", "--output", "DP-1", "--off"]
    (by decide)

/-- C5: every activation group in a successfully built dict comes from a
profile entry for that output and starts with the output token pair and
the position token pair (position defaulting to (0,0)), followed by the
mode tokens when a mode was given and the auto token otherwise. -/
theorem C5_activation_group_shape (specs : List OutputSpec) (avail : List OutputDevice)
    (dict : List (ArgKey × List String)) (o : String) (g : List String)
    (hok : (arg_groups_result specs avail).2 = Except.ok dict)
    (hmem : (ArgKey.name o, g) ∈ dict) :
    ∃ s ∈ specs, s.output = some o
      ∧ g = ["--output", o, "--pos", posString (s.pos.getD (0, 0))]
          ++ (match s.mode with
              | some m => ["--mode", posString m]
              | none => ["--auto"]) := by
  rw [arg_groups_ok_eq specs avail dict hok] at hmem
  rcases List.mem_append.mp hmem with hact | hoff
  · simp only [refActivation, refActivationRestricted] at hact
    obtain ⟨x, hx, hxe⟩ := List.mem_map.mp hact
    have hxo : x = o := by
      have := congrArg Prod.fst hxe
      simpa using this
    have hg : g = (lastArgsFor o specs).getD [] := by
      have := congrArg Prod.snd hxe
      rw [hxo] at this
      exact this.symm
    have hxp : o ∈ profileOutputs specs := by
      rw [hxo] at hx
      exact (mem_firstOccur o (profileOutputs specs)).mp (List.mem_filter.mp hx).1
    obtain ⟨s, hs, hsout, hlast⟩ := lastArgsFor_of_mem o specs hxp
    refine ⟨s, hs, hsout, ?_⟩
    rw [hg, hlast]
    simp [specArgsOf, hsout, specArgs]
  · simp only [refOff] at hoff
    obtain ⟨p, -, hpe⟩ := List.mem_map.mp hoff
    have := congrArg Prod.fst hpe
    simp at this

/-- Witness for C5 at a concrete profile entry with explicit mode and
position. -/
theorem C5_activation_group_shape_witness :
    ∃ s ∈ [(⟨some "eDP-1", some (1920, 1080), some (10, 20)⟩ : OutputSpec)],
      s.output = some "eDP-1"
      ∧ ["--output", "eDP-1", "--pos", "10x20", "--mode", "1920x1080"]
          = ["--output", "eDP-1", "--pos", posString (s.pos.getD (0, 0))]
            ++ (match s.mode with
                | some m => ["--mode", posString m]
                | none => ["--auto"]) :=
  C5_activation_group_shape [⟨some "eDP-1", some (1920, 1080), some (10, 20)⟩]
    [⟨"eDP-1", true, []⟩]
    [(ArgKey.name "eDP-1", ["--output", "eDP-1", "--pos", "10x20", "--mode", "1920x1080"])]
    "eDP-1" ["--output", "eDP-1", "--pos", "10x20", "--mode", "1920x1080"]
    (by rfl) (by decide)

/-- C10 (counterexample): the literal "whitespace-indented" reading is
false — a tab-indented first data line with no preceding header is not
rejected; the code only treats a line as indented when it starts with a
space character, so the tab line is parsed as a header and the prober
returns normally. -/
theorem C10_whitespace_reading_false :
    (get_available_displays "\t1920x1080 60.00").isSome = true
    ∧ ¬ origPrecondition "\t1920x1080 60.00" := by
  refine ⟨rfl, ?_⟩
  intro hpc
  obtain ⟨-, h2⟩ := hpc
  obtain ⟨j, hj, -⟩ := h2 0 (by decide) (by decide)
  exact absurd hj (Nat.not_lt_zero j)

/-- C10 (amended): whenever the prober returns normally, every line that
neither begins with `Screen` nor starts with a space character has at
least two whitespace-separated tokens, and every space-indented
non-`Screen` line is preceded by such a header line. -/
theorem C10_parser_success_precondition (stdout : String) (r : List OutputDevice)
    (h : get_available_displays stdout = some r) : amendPrecondition stdout := by
  obtain ⟨h1, h2⟩ := parseLines_ok_precondition (splitlines stdout) [] none r h
  exact ⟨h1, h2 rfl⟩

/-- Witness for the amended C10 at a concrete well-formed probe output. -/
theorem C10_parser_success_precondition_witness :
    amendPrecondition "eDP-1 connected\n 1920x1080 60.00" :=
  C10_parser_success_precondition "eDP-1 connected\n 1920x1080 60.00"
    [⟨"eDP-1", true, [("1920", "1080")]⟩] rfl

/-- C4: on the spec's scenario input (profile `home` activating `eDP-1`
with mode 1920×1080 at position (0,0) and `HDMI-1` with defaults, probe
reporting `eDP-1` and `HDMI-1` connected and `VGA-1` disconnected), the
builder produces exactly the three expected argument groups, keyed by the
outputs `eDP-1`, `HDMI-1` and `VGA-1` in that order. -/
theorem C4_scenario_groups :
    get_available_displays
        "Screen 0: minimum 320 x 200\neDP-1 connected primary 1920x1080+0+0\n   1920x1080 60.00*+\nHDMI-1 connected\n   1920x1080 60.00\nVGA-1 disconnected (normal left inverted)"
      = some [⟨"eDP-1", true, [("1920", "1080")]⟩, ⟨"HDMI-1", true, [("1920", "1080")]⟩,
              ⟨"VGA-1", false, []⟩]
    ∧ ((arg_groups_result
          [⟨some "eDP-1", some (1920, 1080), some (0, 0)⟩, ⟨some "HDMI-1", none, none⟩]
          [⟨"eDP-1", true, [("1920", "1080")]⟩, ⟨"HDMI-1", true, [("1920", "1080")]⟩,
           ⟨"VGA-1", false, []⟩]).2).map
        (fun d => d.map (fun kv => (keyName kv.1, kv.2)))
      = Except.ok
          [("eDP-1", ["--output", "eDP-1", "--pos", "0x0", "--mode", "1920x1080"]),
           ("HDMI-1", ["--output", "HDMI-1", "--pos", "0x0", "--auto"]),
           ("VGA-1", ["--output", "VGA-1", "--off"])] :=
  ⟨rfl, rfl⟩

/-- C6: list-profiles mode performs no subprocess invocation; its trace is
exactly the header line naming the source file followed by the newline-join
of the profile names. -/
theorem C6_list_mode_no_subprocess (setups_file : String)
    (display_setups : List (String × List OutputSpec)) :
    (list_display_setups setups_file display_setups).filter isRunEvent = []
    ∧ list_display_setups setups_file display_setups
      = [Event.out ("The following setups are defined in " ++ setups_file ++ ":"),
         Event.out (String.intercalate "\n" (display_setups.map Prod.fst))] :=
  ⟨rfl, rfl⟩

/-- C7: the run is a deterministic function of the profile name, the
parsed profile file, the probed output text and the dry-run flag: equal
inputs give identical traces and results. -/
theorem C7_builder_deterministic (n₁ n₂ : String)
    (s₁ s₂ : List (String × List OutputSpec)) (x₁ x₂ : String) (d₁ d₂ : Bool)
    (hn : n₁ = n₂) (hs : s₁ = s₂) (hx : x₁ = x₂) (hd : d₁ = d₂) :
    set_display_setup n₁ s₁ x₁ d₁ = set_display_setup n₂ s₂ x₂ d₂ := by
  subst hn hs hx hd
  rfl

/-- Witness for C7 at a concrete profile and probe. -/
theorem C7_builder_deterministic_witness :
    set_display_setup "home" [("home", [⟨some "eDP-1", none, none⟩])] "eDP-1 connected" false
      = set_display_setup "home" [("home", [⟨some "eDP-1", none, none⟩])] "eDP-1 connected" false :=
  C7_builder_deterministic "home" "home" [("home", [⟨some "eDP-1", none, none⟩])]
    [("home", [⟨some "eDP-1", none, none⟩])] "eDP-1 connected" "eDP-1 connected" false false
    rfl rfl rfl rfl

/-- C1 (code evaluation): with profile `p` activating output `A` and probe
reporting `A` and `B`, the resulting `arg_groups` is keyed by the name
string only for the activated output; the off group is keyed by the probed
device object itself (`arg_groups[display]`, line 128), which is not the
output-name key `B` — so the mapping's key set is not the set of probed
output names. -/
theorem C1_offgroup_key_is_device_object :
    (arg_groups_result [⟨some "A", none, none⟩] [⟨"A", true, []⟩, ⟨"B", true, []⟩]).2
      = Except.ok [(ArgKey.name "A", ["--output", "A", "--pos", "0x0", "--auto"]),
                   (ArgKey.dev 1 "B", ["--output", "B", "--off"])]
    ∧ ArgKey.dev 1 "B" ∉ [ArgKey.name "A", ArgKey.name "B"] :=
  ⟨rfl, by decide⟩

/-- C2 (code evaluation): `set_display_setup` returns the error code 1 for
an unknown profile name, but `__main__` discards that return value, so the
process exit status is 0; the same happens on the success path, whose
returned value is the `CompletedProcess` object rather than its exit
status. -/
theorem C2_exit_status_not_propagated :
    set_display_setup "nope" [("home", [⟨some "eDP-1", none, none⟩])] "eDP-1 connected" false
      = some ([Event.err "Invalid display setup name: nope"], RunResult.code 1)
    ∧ mainRun (some "nope") "displaysetups.json" [("home", [⟨some "eDP-1", none, none⟩])]
        "eDP-1 connected" false
      = some ([Event.err "Invalid display setup name: nope"], 0)
    ∧ (mainRun (some "home") "displaysetups.json" [("home", [⟨some "eDP-1", none, none⟩])]
        "eDP-1 connected" false).map Prod.snd = some 0 :=
  ⟨rfl, rfl, rfl⟩

/-- C8 (counterexample): the prober accepts a mode token `axb` and stores
the pair of strings `("a", "b")` in the record's mode list — not a pair of
positive integers (`"a"` contains no digit, so it denotes no integer at
all, and the parser performs no numeric validation). -/
theorem C8_modes_are_strings_counterexample :
    get_available_displays "A connected\n axb 60.0" = some [⟨"A", true, [("a", "b")]⟩]
    ∧ "a".data.all Char.isDigit = false :=
  ⟨rfl, by decide⟩

/-- C8 (amended): for every indented non-`Screen` line, the parser splits
the line's first whitespace-delimited token on `x` and, when that yields
exactly two fragments, appends the fragment pair — as strings, with no
numeric parsing — to the current record's mode list via `add_mode`. -/
theorem C8_mode_line_appends_split_pair (l : String) (rest : List String)
    (acc : List OutputDevice) (d : OutputDevice) (t : String) (ts : List String) (w h : String)
    (hscreen : pyStartswith l "Screen" = false) (hsp : pyStartswith l " " = true)
    (htok : pySplit l = t :: ts) (hx : pySplitChar t 'x' = [w, h]) :
    parseLines (l :: rest) acc (some d) = parseLines rest acc (some (d.add_mode w h)) := by
  simp [parseLines, hscreen, hsp, htok, hx]

/-- Witness for the amended C8 at a concrete mode line. -/
theorem C8_mode_line_appends_split_pair_witness :
    parseLines [" 1920x1080 60.00"] [] (some ⟨"eDP-1", true, []⟩)
      = parseLines [] [] (some (OutputDevice.add_mode ⟨"eDP-1", true, []⟩ "1920" "1080")) :=
  C8_mode_line_appends_split_pair " 1920x1080 60.00" [] [] ⟨"eDP-1", true, []⟩
    "1920x1080" ["60.00"] "1920" "1080" rfl rfl rfl rfl

end Disparrange
